import Mathlib

/-!
# Verification of the Sandia Data Archive (SDA) record serialization engine

Shallow embedding of the SDA archive code and the properties claimed about it.
The repository snapshot contains two generations of the same library; following
the claims' citations we take:

* `src/sda/sda_file.py`    — archive operations (`insert`, `extract`, `remove`,
  `replace`, `labels`, label/mode validation);
* `src/sdafile/utils.py`   — type inference (`infer_record_type`), coercion
  helpers (`coerce_complex`, `coerce_sparse`, `coerce_logical`,
  `is_valid_matlab_field_label`) and header validation
  (`error_if_bad_header`, `is_valid_format_version`, `is_valid_date`, ...);
* `src/sda/utils.py`       — extraction codecs (`extract_complex`,
  `extract_sparse`, `extract_logical`, `extract_numeric`).

Modelling conventions:

* machine floats enter the claims only through NaN bookkeeping and exact
  payload transport, so a float is `Fl := Option Int` with `Option.none`
  playing NaN (`np.isnan` is `Option.isNone`) and `some q` a non-NaN payload;
* numpy arrays are a shape (list of dimension sizes) plus the row-major
  (C-order) flat list of entries; column-major ravel/reshape are real index
  permutations (`ravelF`/`reshapeF` below), matching `order='F'` in the source;
* Python exceptions are an explicit error type `PyErr` returned through
  `Except` or alongside the post-call archive state;
* machine integer casts are `% 2^w` on `Int`/`Nat` (see `astype_uint8`).
-/

namespace SDA

/-- A Python/numpy float, reduced to what the serialization rules inspect:
`Option.none` models NaN, `some q` models a non-NaN value carried verbatim. -/
abbrev Fl := Option Int

/-- Python exceptions that the modelled code can raise.  `outOfModel` marks
code paths that exist in the source but lie outside the scope of this
embedding (sparse/composite extraction payloads, value shapes the claims never
build); no theorem below depends on an `outOfModel` result. -/
inductive PyErr where
  | valueError
  | unicodeEncodeError
  | ioError
  | keyError
  | attributeError
  | outOfModel
deriving DecidableEq

deriving instance DecidableEq for Except

/-- `except ValueError` in Python also catches `UnicodeEncodeError` (a
subclass of `ValueError`). -/
def isValueError : PyErr → Bool
  | .valueError => true
  | .unicodeEncodeError => true
  | _ => false

/-! ## Mixed-radix index arithmetic (C-order vs Fortran-order positions)

A multi-index into shape `[d0, d1, ..., dk]` is a list of digits, one per
dimension, first dimension first.  `toCidx`/`fromCidx` convert between a
multi-index and the row-major (C-order) linear position (last index fastest);
`toFidx`/`fromFidx` convert to/from the column-major (Fortran-order) position
(first index fastest).  These implement numpy's `ravel(order='F')` and
`reshape(order='F')` over the C-order storage used by `NDArray`. -/

/-- Row-major linear position of a multi-index: the stride of a dimension is
the product of the trailing dimension sizes. -/
def toCidx : List Nat → List Nat → Nat
  | _ :: ds, i :: is => i * ds.prod + toCidx ds is
  | _, _ => 0

/-- Multi-index of a row-major linear position. -/
def fromCidx : List Nat → Nat → List Nat
  | [], _ => []
  | _ :: ds, i => (i / ds.prod) :: fromCidx ds (i % ds.prod)

/-- Column-major linear position of a multi-index: the first index varies
fastest. -/
def toFidx : List Nat → List Nat → Nat
  | d :: ds, i :: is => i + d * toFidx ds is
  | _, _ => 0

/-- Multi-index of a column-major linear position. -/
def fromFidx : List Nat → Nat → List Nat
  | [], _ => []
  | d :: ds, j => (j % d) :: fromFidx ds (j / d)

/-- A numpy ndarray: dimension sizes plus the row-major flat list of entries.
Well-formedness (`cdata.length = shape.prod`) is carried as a hypothesis. -/
structure NDArray (α : Type) where
  shape : List Nat
  cdata : List α
deriving DecidableEq

/-- `a.ravel(order='F')`: the column-major flattening of C-order data. -/
def ravelF [Inhabited α] (shape : List Nat) (cdata : List α) : List α :=
  (List.range shape.prod).map fun j => cdata.getD (toCidx shape (fromFidx shape j)) default

/-- `np.reshape(flat, shape, order='F')` stored back in C-order: entry at
row-major position `i` comes from column-major position of the same
multi-index. -/
def reshapeF [Inhabited α] (shape : List Nat) (flat : List α) : List α :=
  (List.range shape.prod).map fun i => flat.getD (toFidx shape (fromCidx shape i)) default

/-- Shape of `np.atleast_2d`: scalars become 1×1, length-`n` vectors become
1×n rows, higher dimensions are untouched.  Prepending size-1 dimensions does
not change the C-order flat data. -/
def atleast2dShape : List Nat → List Nat
  | [] => [1, 1]
  | [n] => [1, n]
  | s => s

/-- Complex dtype width (numpy `complex64` / `complex128`). -/
inductive CPrec where
  | c64
  | c128
deriving DecidableEq

/-- Float dtype width (numpy `float32` / `float64`). -/
inductive FPrec where
  | f32
  | f64
deriving DecidableEq

/-- dtype of `data.real` / `data.imag` for a complex array: each row keeps the
component width of the complex input. -/
def complexRowPrec : CPrec → FPrec
  | .c64 => .f32
  | .c128 => .f64

/-- dtype selection in `extract_complex` (src/sda/utils.py): `float64` rows
rebuild `complex128`, `float32` rows rebuild `complex64`. -/
def extract_complex_prec : FPrec → CPrec
  | .f64 => .c128
  | .f32 => .c64

/-- `coerce_complex` (src/sdafile/utils.py lines 170-187): flatten
`np.atleast_2d(data)` in column-major order, then stack the real parts and the
imaginary parts as rows 0 and 1 of a 2×N array.  A complex entry is a pair
(real, imaginary). -/
def coerce_complex [Inhabited α] (a : NDArray (α × α)) : List α × List α :=
  let flat := ravelF (atleast2dShape a.shape) a.cdata
  (flat.map Prod.fst, flat.map Prod.snd)

/-- `extract_complex` (src/sda/utils.py lines 181-192): allocate a
Fortran-ordered array of the recorded shape, write row 0 into the flat view's
real parts and row 1 into its imaginary parts.  Pairing the two rows is the
`zip`; laying the column-major flat data back out in C-order is `reshapeF`. -/
def extract_complex [Inhabited α] (rows : List α × List α) (shape : List Nat) :
    NDArray (α × α) :=
  ⟨shape, reshapeF shape (rows.1.zip rows.2)⟩

/-! ## Sparse codec -/

/-- `scipy.sparse.coo_matrix`: parallel row/column index arrays (0-based
naturals), the stored values, and the matrix shape. -/
structure Coo (α : Type) where
  row : List Nat
  col : List Nat
  data : List α
  shape : Nat × Nat
deriving DecidableEq

/-- Maximum of a list of naturals (0 for the empty list). -/
def maxL (l : List Nat) : Nat := l.foldr max 0

/-- `coerce_sparse` (src/sdafile/utils.py lines 247-264): a 3×N matrix of
rows `[row + 1, col + 1, value]`; the index rows are 1-based for MATLAB
compatibility. -/
def coerce_sparse (c : Coo α) : List Nat × List Nat × List α :=
  (c.row.map (· + 1), c.col.map (· + 1), c.data)

/-- `extract_sparse` (src/sda/utils.py lines 209-215): unpack the three rows,
subtract 1 from both index rows, and rebuild `coo_matrix((data, (row, col)))`.
No shape is passed, so scipy infers `(max(row) + 1, max(col) + 1)` and raises
`ValueError` when the index arrays are empty ("cannot infer dimensions").
Stored index entries produced by `coerce_sparse` are ≥ 1, so natural
subtraction is exact here. -/
def extract_sparse (t : List Nat × List Nat × List α) : Except PyErr (Coo α) :=
  match t with
  | (r1, c1, v) =>
    if r1.isEmpty || c1.isEmpty then .error .valueError
    else
      let row := r1.map (· - 1)
      let col := c1.map (· - 1)
      .ok ⟨row, col, v, (maxL row + 1, maxL col + 1)⟩

/-! ## Logical codec -/

/-- `np.uint8(1 if data else 0)` for a scalar logical. -/
def coerce_logical_scalar (b : Bool) : Nat := if b then 1 else 0

/-- numpy `astype(np.uint8)` on an integer: a C cast to an unsigned 8-bit
value, i.e. reduction modulo 2^8 (negative values wrap). -/
def astype_uint8 (x : Int) : Nat := (x % 256).toNat

/-- `coerce_logical` array branch (src/sdafile/utils.py lines 208-227):
`data.astype(np.uint8).clip(0, 1)` — cast each entry to unsigned 8-bit
(wrapping modulo 256) and then clip the result into {0, 1}. -/
def coerce_logical_array (xs : List Int) : List Nat :=
  xs.map fun x => min (astype_uint8 x) 1

/-- `extract_logical` scalar branch (src/sda/utils.py lines 195-201):
`bool(data)`. -/
def extract_logical_scalar (n : Nat) : Bool := n != 0

/-- `extract_logical` array branch: `data.astype(bool)`. -/
def extract_logical_array (ys : List Nat) : List Bool := ys.map (· != 0)

/-! ## Header validation (src/sdafile/utils.py lines 289-549)

`is_valid_date` calls `time.strptime` with `"%d-%b-%Y %H:%M:%S"` and then
`"%d-%b-%Y"`.  CPython's `_strptime` compiles these formats to anchored
regexes — `%d` is `(3[01]|[12]\d|0[1-9]|[1-9])`, `%b` the case-insensitive
month abbreviations, `%Y` exactly four digits, `%H` `(2[0-3]|[0-1]\d|\d)`,
`%M` `([0-5]\d|\d)`, `%S` `(6[0-1]|[0-5]\d|\d)`, literal whitespace one or
more whitespace characters — requires the match to consume the whole string,
and finally builds `datetime.date(year, month, day)`, which raises for a day
out of range for its month or a year of 0.  The parsers below implement the
alternations in the regex's order; for these formats the ordered-choice
parse agrees with the backtracking regex because whenever a longer alternative
succeeds the following literal distinguishes it from the shorter one. -/

/-- Numeric value of an ASCII digit. -/
def digitVal (c : Char) : Nat := c.toNat - '0'.toNat

/-- Fold a digit string into the number `int()` would produce. -/
def digitsToNat (ds : List Char) : Nat :=
  ds.foldl (fun acc c => 10 * acc + digitVal c) 0

/-- Day-of-month component: regex `(3[01]|[12]\d|0[1-9]|[1-9])`. -/
def parseDay : List Char → Option (Nat × List Char)
  | c1 :: c2 :: rest =>
    if c1 == '3' && (c2 == '0' || c2 == '1') then some (30 + digitVal c2, rest)
    else if (c1 == '1' || c1 == '2') && c2.isDigit then
      some (10 * digitVal c1 + digitVal c2, rest)
    else if c1 == '0' && c2.isDigit && c2 != '0' then some (digitVal c2, rest)
    else if c1.isDigit && c1 != '0' then some (digitVal c1, c2 :: rest)
    else Option.none
  | [c1] => if c1.isDigit && c1 != '0' then some (digitVal c1, []) else Option.none
  | [] => Option.none

/-- Month abbreviation component, case-insensitive (`%b`, C locale). -/
def parseMonth : List Char → Option (Nat × List Char)
  | a :: b :: c :: rest =>
    let w := String.mk [a.toLower, b.toLower, c.toLower]
    let names := ["jan", "feb", "mar", "apr", "may", "jun",
                  "jul", "aug", "sep", "oct", "nov", "dec"]
    let idx := names.indexOf w
    if idx < 12 then some (idx + 1, rest) else Option.none
  | _ => Option.none

/-- Year component: regex `\d\d\d\d` (exactly four digits). -/
def parseYear4 : List Char → Option (Nat × List Char)
  | c1 :: c2 :: c3 :: c4 :: rest =>
    if c1.isDigit && c2.isDigit && c3.isDigit && c4.isDigit then
      some (digitsToNat [c1, c2, c3, c4], rest)
    else Option.none
  | _ => Option.none

/-- Hour component: regex `(2[0-3]|[0-1]\d|\d)`. -/
def parseHour : List Char → Option (Nat × List Char)
  | c1 :: c2 :: rest =>
    if c1 == '2' && ('0' ≤ c2 && c2 ≤ '3') then some (20 + digitVal c2, rest)
    else if (c1 == '0' || c1 == '1') && c2.isDigit then
      some (10 * digitVal c1 + digitVal c2, rest)
    else if c1.isDigit then some (digitVal c1, c2 :: rest)
    else Option.none
  | [c1] => if c1.isDigit then some (digitVal c1, []) else Option.none
  | [] => Option.none

/-- Minute component: regex `([0-5]\d|\d)`. -/
def parseMinute : List Char → Option (Nat × List Char)
  | c1 :: c2 :: rest =>
    if ('0' ≤ c1 && c1 ≤ '5') && c2.isDigit then
      some (10 * digitVal c1 + digitVal c2, rest)
    else if c1.isDigit then some (digitVal c1, c2 :: rest)
    else Option.none
  | [c1] => if c1.isDigit then some (digitVal c1, []) else Option.none
  | [] => Option.none

/-- Second component: regex `(6[0-1]|[0-5]\d|\d)` (leap seconds allowed). -/
def parseSecond : List Char → Option (Nat × List Char)
  | c1 :: c2 :: rest =>
    if c1 == '6' && (c2 == '0' || c2 == '1') then some (60 + digitVal c2, rest)
    else if ('0' ≤ c1 && c1 ≤ '5') && c2.isDigit then
      some (10 * digitVal c1 + digitVal c2, rest)
    else if c1.isDigit then some (digitVal c1, c2 :: rest)
    else Option.none
  | [c1] => if c1.isDigit then some (digitVal c1, []) else Option.none
  | [] => Option.none

/-- One fixed literal character of the format string. -/
def parseLit (c : Char) : List Char → Option (List Char)
  | x :: rest => if x == c then some rest else Option.none
  | [] => Option.none

/-- Literal whitespace in a strptime format matches `\s+`. -/
def parseSpaces1 : List Char → Option (List Char)
  | x :: rest =>
    if x.isWhitespace then some (rest.dropWhile Char.isWhitespace) else Option.none
  | [] => Option.none

/-- Gregorian leap-year rule used by `datetime.date`. -/
def isLeapYear (y : Nat) : Bool :=
  (y % 4 == 0 && y % 100 != 0) || (y % 400 == 0)

/-- Days in a month per `datetime.date`. -/
def daysInMonth (y m : Nat) : Nat :=
  if m == 2 then (if isLeapYear y then 29 else 28)
  else if m == 4 || m == 6 || m == 9 || m == 11 then 30
  else 31

/-- Calendar validation done by `datetime.date(year, month, day)` inside
`_strptime` (month is already 1-12 from the abbreviation table). -/
def validYMD (y m d : Nat) : Bool :=
  1 ≤ y && y ≤ 9999 && 1 ≤ d && d ≤ daysInMonth y m

/-- Whole-string match of `"%d-%b-%Y"`. -/
def matchShortDate (cs : List Char) : Option (Nat × Nat × Nat) := do
  let (d, cs) ← parseDay cs
  let cs ← parseLit '-' cs
  let (m, cs) ← parseMonth cs
  let cs ← parseLit '-' cs
  let (y, cs) ← parseYear4 cs
  if cs.isEmpty then some (y, m, d) else Option.none

/-- Whole-string match of `"%d-%b-%Y %H:%M:%S"`. -/
def matchFullDate (cs : List Char) : Option (Nat × Nat × Nat) := do
  let (d, cs) ← parseDay cs
  let cs ← parseLit '-' cs
  let (m, cs) ← parseMonth cs
  let cs ← parseLit '-' cs
  let (y, cs) ← parseYear4 cs
  let cs ← parseSpaces1 cs
  let (_, cs) ← parseHour cs
  let cs ← parseLit ':' cs
  let (_, cs) ← parseMinute cs
  let cs ← parseLit ':' cs
  let (_, cs) ← parseSecond cs
  if cs.isEmpty then some (y, m, d) else Option.none

/-- `is_valid_date` (src/sdafile/utils.py lines 527-536): try the full format
first, then the date-only format; a string is valid when either `strptime`
call succeeds, i.e. the format regex matches and the calendar accepts the
date. -/
def is_valid_date (s : String) : Bool :=
  (match matchFullDate s.data with
   | some (y, m, d) => validYMD y m d
   | Option.none => false) ||
  (match matchShortDate s.data with
   | some (y, m, d) => validYMD y m d
   | Option.none => false)

/-- `is_valid_file_format` (src/sdafile/utils.py lines 539-541). -/
def is_valid_file_format (v : String) : Bool := v == "SDA"

/-- `is_valid_format_version` (src/sdafile/utils.py lines 544-549):
`re.match` of `1\.(?P<sub>\d+)` — an anchored prefix match whose greedy digit
run is then required to read as an integer between 0 and 1. -/
def is_valid_format_version (v : String) : Bool :=
  match v.data with
  | '1' :: '.' :: rest =>
    let ds := rest.takeWhile Char.isDigit
    !ds.isEmpty && digitsToNat ds ≤ 1
  | _ => false

/-- `is_valid_writable` (src/sdafile/utils.py lines 560-562). -/
def is_valid_writable (v : String) : Bool := v == "yes" || v == "no"

/-- The five archive-level header attributes, each possibly absent. -/
structure Header where
  FileFormat : Option String
  FormatVersion : Option String
  Writable : Option String
  Created : Option String
  Updated : Option String
deriving DecidableEq

/-- The `BadSDAFile` exception with which header problems are reported. -/
inductive BadSDAFile where
  | missingAttr (attr : String)
  | invalidAttr (attr : String)
deriving DecidableEq

/-- `error_if_bad_attr` (src/sdafile/utils.py lines 289-306): missing
attribute and invalid attribute are both fatal. -/
def error_if_bad_attr (value : Option String) (attr : String)
    (is_valid : String → Bool) : Except BadSDAFile Unit :=
  match value with
  | Option.none => .error (.missingAttr attr)
  | some v => if is_valid v then .ok () else .error (.invalidAttr attr)

/-- Python's statement sequencing of two checks that raise on failure: the
first failure aborts. -/
def andThenCheck (e1 k : Except BadSDAFile Unit) : Except BadSDAFile Unit :=
  match e1 with
  | .error x => .error x
  | .ok _ => k

/-- `error_if_bad_header` (src/sdafile/utils.py lines 309-324): check the five
attributes in order; the first failure aborts. -/
def error_if_bad_header (h : Header) : Except BadSDAFile Unit :=
  andThenCheck (error_if_bad_attr h.FileFormat "FileFormat" is_valid_file_format)
    (andThenCheck (error_if_bad_attr h.FormatVersion "FormatVersion" is_valid_format_version)
      (andThenCheck (error_if_bad_attr h.Writable "Writable" is_valid_writable)
        (andThenCheck (error_if_bad_attr h.Created "Created" is_valid_date)
          (error_if_bad_attr h.Updated "Updated" is_valid_date))))

/-! ## Values and type inference (src/sdafile/utils.py lines 362-514)

`PyVal` covers the Python value shapes exercised by the claims: text, boolean,
integer and float scalars, complex scalars and complex ndarrays, sequences
(cells), mappings (structures), and `None` as a representative unsupported
value.  The constructors are mutually exclusive, so matching on them realizes
the source's ordered `isinstance` dispatch for these shapes. -/

inductive PyVal where
  | str (s : String)
  | pybool (b : Bool)
  | int (n : Int)
  | float (x : Fl)
  | complex (re im : Fl)
  | complexArr (shape : List Nat) (cdata : List (Fl × Fl))
  | intArr (shape : List Nat) (cdata : List Int)
  | list (xs : List PyVal)
  | dict (fields : List (String × PyVal))
  | none

mutual

/-- Structural size of a value, used as fuel for the composite walker. -/
def pySize : PyVal → Nat
  | .list xs => 1 + pySizeList xs
  | .dict fs => 1 + pySizeFields fs
  | _ => 1

/-- Size of a list of values. -/
def pySizeList : List PyVal → Nat
  | [] => 0
  | x :: xs => 1 + pySize x + pySizeList xs

/-- Size of a field list. -/
def pySizeFields : List (String × PyVal) → Nat
  | [] => 0
  | (_, v) :: fs => 1 + pySize v + pySizeFields fs

end

/-- `infer_record_type` (src/sdafile/utils.py lines 362-514), returning
`(record_type, is_empty, extra)` with `Option.none` for the source's
`UNSUPPORTED` 4-tuple of `None`s (the normalized value component is the input
itself for every shape modelled here).

The complex branch is translated faithfully from the source, which computes

  `is_empty = np.isnan(obj.real) and np.isnan(obj.complex)`

(and the `.all()` variant for arrays).  Neither Python's `complex` nor numpy
scalars/arrays have an attribute named `complex`, so whenever the real part is
NaN (all-NaN for arrays) the conjunction's right operand is evaluated and the
attribute lookup raises `AttributeError`; when some real part is non-NaN the
`and` short-circuits to `False`. -/
def infer_record_type : PyVal → Except PyErr (Option (String × Bool × Option String))
  | .str s => .ok (some ("character", s.isEmpty, Option.none))
  | .list xs => .ok (some ("cell", xs.isEmpty, Option.none))
  | .complex re _ =>
    if re.isNone then .error .attributeError
    else .ok (some ("numeric", false, some "complex"))
  | .complexArr _ cdata =>
    if cdata.all (fun z => z.1.isNone) then .error .attributeError
    else .ok (some ("numeric", false, some "complex"))
  | .dict fs => .ok (some ("structure", fs.isEmpty, Option.none))
  | .intArr shape _ => .ok (some ("numeric", shape.prod == 0, Option.none))
  | .pybool _ => .ok (some ("logical", false, Option.none))
  | .int _ => .ok (some ("numeric", false, Option.none))
  | .float x => .ok (some ("numeric", x.isNone, Option.none))
  | .none => .ok Option.none

/-- The spec's emptiness rule for complex data, stated from the claim's words
for comparison with the source behaviour: empty iff every real part and every
imaginary part is NaN. -/
def claimComplexEmpty (re im : Fl) : Bool := re.isNone && im.isNone

/-- `is_valid_matlab_field_label` (src/sdafile/utils.py lines 552-557): the
label starts with an ASCII letter and contains only ASCII letters, digits and
underscores. -/
def is_valid_matlab_field_label (label : String) : Bool :=
  match label.data with
  | [] => false
  | c :: _ => c.isAlpha && label.data.all (fun ch => ch.isAlpha || ch.isDigit || ch == '_')

/-! ## The HDF5 container model

Groups and datasets carry attribute dictionaries; datasets additionally carry
their storage configuration (represented by the compression level, standing in
for the chunking/compression options the `remove` visitor forwards) and the
stored payload. -/

/-- An HDF5 attribute value: string, integer, small tuple of naturals
(`RecordSize`, `ArraySize`), or Python `None` written by the unsupported-child
path of the composite walker. -/
inductive AttrVal where
  | s (v : String)
  | i (v : Int)
  | nats (v : List Nat)
  | nullv
deriving DecidableEq

/-- An attribute dictionary, insertion-ordered like h5py's. -/
abbrev Attrs := List (String × AttrVal)

/-- Dictionary lookup. -/
def attrsGet (a : Attrs) (k : String) : Option AttrVal :=
  (a.find? (fun kv => kv.1 == k)).map (·.2)

/-- Dictionary update: replace an existing key in place, else append. -/
def attrsSet (a : Attrs) (k : String) (v : AttrVal) : Attrs :=
  if a.any (fun kv => kv.1 == k) then
    a.map (fun kv => if kv.1 == k then (k, v) else kv)
  else a ++ [(k, v)]

/-- Apply a list of updates in order (one `set_encoded` call). -/
def applyAttrs (a : Attrs) (upd : Attrs) : Attrs :=
  upd.foldl (fun acc kv => attrsSet acc kv.1 kv.2) a

/-- `update_header` (src/sdafile/utils.py lines 659-665): rewrite
`FormatVersion` to "1.1" and `Updated` to the current time. -/
def update_header (a : Attrs) (now : String) : Attrs :=
  attrsSet (attrsSet a "FormatVersion" (.s "1.1")) "Updated" (.s now)

/-- A dataset payload in storage form. -/
inductive Stored where
  | sclInt (n : Int)
  | sclFl (f : Fl)
  | bytes (s : String)
  | numArr (shape : List Nat) (cdata : List Int)
  | complexRows (re im : List Fl)
deriving DecidableEq

/-- An HDF5 object: a group (attributes plus named children) or a dataset
(attributes, storage configuration, payload). -/
inductive HObj where
  | group (attrs : Attrs) (children : List (String × HObj))
  | dataset (attrs : Attrs) (compression : Option Int) (data : Stored)

/-- An SDA archive: the file's root attributes (the header) and its top-level
record groups. -/
structure Archive where
  attrs : Attrs
  children : List (String × HObj)

/-- `labels()` (src/sda/sda_file.py lines 270-273). -/
def labelsOf (arch : Archive) : List String := arch.children.map (·.1)

/-- Lookup of a named child in a group's children. -/
def childLookup (ch : List (String × HObj)) (k : String) : Option HObj :=
  (ch.find? (fun kv => kv.1 == k)).map (·.2)

/-- Attribute dictionary of either kind of object. -/
def hAttrs : HObj → Attrs
  | .group a _ => a
  | .dataset a _ _ => a

/-- `obj[name]` on a group; datasets have no children. -/
def hChild : HObj → String → Option HObj
  | .group _ ch, k => childLookup ch k
  | .dataset _ _ _, _ => Option.none

/-- Open modes that permit writing (src/sda/sda_file.py line 28). -/
def WRITE_MODES : List String := ["w", "w-", "x", "a"]

/-- Record types written through the primitive codec
(src/sda/utils.py line 21). -/
def is_primitive (rt : String) : Bool :=
  ["character", "logical", "numeric"].contains rt

/-- Record types `extract` accepts (src/sda/utils.py line 22, the module
`sda/sda_file.py` imports from). -/
def is_supported (rt : String) : Bool :=
  ["character", "logical", "numeric", "cell"].contains rt

/-- Labels may not contain a slash or a backslash
(src/sda/sda_file.py lines 539-545). -/
def labelHasBadChar (l : String) : Bool :=
  l.data.contains '/' || l.data.contains '\\'

/-- `_validate_can_write` (src/sda/sda_file.py lines 532-537): the open mode
must permit writing and the archive's `Writable` flag must not be "no"
(reading a missing `Writable` attribute raises `KeyError` inside the
`Writable` property). -/
def validate_can_write (arch : Archive) (mode : String) : Option PyErr :=
  if !(WRITE_MODES.contains mode) then some .ioError
  else
    match attrsGet arch.attrs "Writable" with
    | Option.none => some .keyError
    | some (.s w) => if w == "no" then some .ioError else Option.none
    | some _ => Option.none

/-! ## Primitive insertion (src/sda/sda_file.py lines 485-525) -/

/-- `coerce_primitive` (src/sda/utils.py lines 37-79) restricted to the value
shapes of `PyVal`; the final branch is the source's
`ValueError("Unrecognized record type ...")`.  Character data is
ascii-encoded and a non-ASCII character raises `UnicodeEncodeError`. -/
def coerce_primitive (rt : String) (v : PyVal) (extra : Option String) :
    Except PyErr (Stored × Option (List Nat)) :=
  if rt == "numeric" then
    match extra, v with
    | some "complex", .complex re im => .ok (.complexRows [re] [im], some [1, 1])
    | some "complex", .complexArr shape cdata =>
      let flat := ravelF shape cdata
      .ok (.complexRows (flat.map Prod.fst) (flat.map Prod.snd),
           some (atleast2dShape shape))
    | Option.none, .int n => .ok (.sclInt n, Option.none)
    | Option.none, .float f => .ok (.sclFl f, Option.none)
    | Option.none, .intArr shape cdata => .ok (.numArr shape cdata, Option.none)
    | _, _ => .error .outOfModel
  else if rt == "logical" then
    match v with
    | .pybool b => .ok (.sclInt (if b then 1 else 0), Option.none)
    | _ => .error .outOfModel
  else if rt == "character" then
    match v with
    | .str s =>
      if s.data.all (fun c => c.toNat < 128) then .ok (.bytes s, Option.none)
      else .error .unicodeEncodeError
    | _ => .error .outOfModel
  else .error .valueError

/-- `np.isscalar(data) or data.shape == ()` on the coerced payload. -/
def storedIsScalar : Stored → Bool
  | .sclInt _ => true
  | .sclFl _ => true
  | _ => false

/-- `np.squeeze(data).shape == (0,)`: exactly one axis of size 0 and every
other axis of size 1. -/
def storedIsEmptyArr (shape : List Nat) : Bool :=
  shape.filter (fun d => d != 1) == [0]

/-- The `Empty` flag computed inside `_insert_primitive_data`: scalars are
empty iff NaN, arrays iff they squeeze to shape `(0,)`. -/
def storedEmptyFlag : Stored → String
  | .sclInt _ => "no"
  | .sclFl f => if f.isNone then "yes" else "no"
  | .bytes s => if storedIsEmptyArr [s.length] then "yes" else "no"
  | .numArr shape _ => if storedIsEmptyArr shape then "yes" else "no"
  | .complexRows re _ => if storedIsEmptyArr [2, re.length] then "yes" else "no"

/-- The body of `_insert_primitive_data` up to the dataset it creates:
coercion, the `Empty` flag, the dataset attributes (`RecordType`, `Empty`,
`Complex`/`Sparse` for numeric data, `ArraySize` for complex data), and the
storage configuration (scalars are stored uncompressed).  Returns the `Empty`
flag separately because the source also writes it onto the enclosing group's
attributes. -/
def insertPrimitiveData (deflate : Int) (rt : String) (v : PyVal)
    (extra : Option String) : Except PyErr (String × HObj) :=
  match coerce_primitive rt v extra with
  | .error e => .error e
  | .ok (stored, origShape) =>
    let empty := storedEmptyFlag stored
    let compression : Option Int :=
      if storedIsScalar stored then Option.none else some deflate
    let isNumeric := rt == "numeric"
    let isComplex := extra == some "complex" || extra == some "sparse+complex"
    let isSparse := extra == some "sparse" || extra == some "sparse+complex"
    let dattrs : Attrs :=
      [("RecordType", .s rt), ("Empty", .s empty)] ++
      (if isNumeric then
        [("Complex", .s (if isComplex then "yes" else "no")),
         ("Sparse", .s (if isSparse then "yes" else "no"))]
       else []) ++
      (match origShape, isComplex with
       | some sh, true => [("ArraySize", .nats sh)]
       | _, _ => [])
    .ok (empty, .dataset dattrs compression stored)

/-! ## The composite walker (src/sda/sda_file.py lines 441-483)

The walker is totalized with a fuel parameter; `insertOp` passes fuel larger
than the size of the value, so the `outOfModel` fuel-exhaustion result is
unreachable from the operations as invoked below. -/

/-- Insertion sort of the structure's `(str(key), value)` pairs by key,
matching `sorted` (keys are unique, so the value component never enters the
comparison). -/
def insertByKey (p : String × PyVal) : List (String × PyVal) → List (String × PyVal)
  | [] => [p]
  | q :: rest => if p.1 ≤ q.1 then p :: q :: rest else q :: insertByKey p rest

/-- Sort structure fields by field name. -/
def sortByKey : List (String × PyVal) → List (String × PyVal)
  | [] => []
  | p :: rest => insertByKey p (sortByKey rest)

/-- `' '.join(labels)` for the `FieldNames` attribute. -/
def joinWithSpace (ls : List String) : String := String.intercalate " " ls

/-- Cell child labels `"element 1" ... "element N"`. -/
def cellLabels (n : Nat) : List String :=
  (List.range n).map fun i => "element " ++ toString (i + 1)

/-- Overwrite the group's `Empty` attribute with the last primitive child's
flag, when any primitive child was written: `_insert_primitive_data` receives
the enclosing group and rewrites its `Empty` attribute on every call. -/
def applyEmpty (base : Attrs) : Option String → Attrs
  | some e => attrsSet base "Empty" (.s e)
  | Option.none => base

mutual

/-- `_insert_composite_data`: returns (header touched, group attribute
updates, children written, error).  On error the attributes and children
written before the failure are reported so that the caller can either delete
the enclosing top-level group (`ValueError`) or leave the partial record in
place (any other exception). -/
def insertCompositeData : Nat → Int → String → PyVal →
    Bool × Attrs × List (String × HObj) × Option PyErr
  | 0, _, _, _ => (false, [], [], some .outOfModel)
  | fuel + 1, deflate, rt, v =>
    if rt == "cell" then
      match v with
      | .list xs =>
        let n := xs.length
        let base : Attrs :=
          [("RecordSize", .nats [1, n]),
           ("Empty", .s (if n == 0 then "yes" else "no"))]
        let r := insertChildren fuel deflate (cellLabels n) xs
        (r.1, applyEmpty base r.2.1, r.2.2.1, r.2.2.2)
      | _ => (false, [], [], some .outOfModel)
    else if rt == "structure" then
      match v with
      | .dict fs =>
        -- `labels, data = zip(*data)` on an empty dict raises ValueError
        if fs.isEmpty then (false, [], [], some .valueError)
        else
          let entries := sortByKey fs
          let labels := entries.map (·.1)
          if labels.all is_valid_matlab_field_label then
            let base : Attrs :=
              [("FieldNames", .s (joinWithSpace labels)), ("Empty", .s "no")]
            let r := insertChildren fuel deflate labels (entries.map (·.2))
            (r.1, applyEmpty base r.2.1, r.2.2.1, r.2.2.2)
          else (false, [], [], some .valueError)
      | _ => (false, [], [], some .outOfModel)
    else
      -- `raise ValueError(record_type)`, reached e.g. for an unsupported child
      (false, [], [], some .valueError)

/-- The child loop of `_insert_composite_data`: returns (header touched, last
primitive child's `Empty` flag, children written, error).  Primitive children
are written as datasets into the enclosing group and call `update_header`;
composite children get a sub-group carrying `RecordType` and recurse.  A child
whose inferred type is unsupported gets its sub-group (with a `None`
record-type attribute) before the recursion raises `ValueError`. -/
def insertChildren : Nat → Int → List String → List PyVal →
    Bool × Option String × List (String × HObj) × Option PyErr
  | 0, _, _, _ => (false, Option.none, [], some .outOfModel)
  | _ + 1, _, _, [] => (false, Option.none, [], Option.none)
  | _ + 1, _, [], _ => (false, Option.none, [], Option.none)
  | fuel + 1, deflate, l :: ls, x :: xs =>
    match infer_record_type x with
    | .error e => (false, Option.none, [], some e)
    | .ok Option.none =>
      (false, Option.none, [(l, .group [("RecordType", .nullv)] [])], some .valueError)
    | .ok (some (srt, _, sextra)) =>
      if is_primitive srt then
        match insertPrimitiveData deflate srt x sextra with
        | .error e => (false, Option.none, [], some e)
        | .ok (emptyStr, ds) =>
          let r := insertChildren fuel deflate ls xs
          (true, (r.2.1 <|> some emptyStr), (l, ds) :: r.2.2.1, r.2.2.2)
      else
        let rc := insertCompositeData fuel deflate srt x
        let subgrp : HObj :=
          .group (applyAttrs [("RecordType", .s srt)] rc.2.1) rc.2.2.1
        match rc.2.2.2 with
        | some e => (rc.1, Option.none, [(l, subgrp)], some e)
        | Option.none =>
          let r := insertChildren fuel deflate ls xs
          (rc.1 || r.1, r.2.1, (l, subgrp) :: r.2.2.1, r.2.2.2)

end

/-! ## Archive operations (src/sda/sda_file.py) -/

/-- `insert` (src/sda/sda_file.py lines 173-268).  Validation order:
writability, label characters, label freshness, deflate bounds, type
inference.  On a composite failure, the `except ValueError` handler deletes
the partially-written top-level group before re-raising; any other exception
propagates with the partial group left behind.  `update_header` runs once per
successfully written primitive dataset. -/
def insertOp (arch : Archive) (mode : String) (label : String) (v : PyVal)
    (description : String) (deflate : Int) (now : String) : Archive × Option PyErr :=
  match validate_can_write arch mode with
  | some e => (arch, some e)
  | Option.none =>
  if labelHasBadChar label then (arch, some .valueError)
  else if (labelsOf arch).contains label then (arch, some .valueError)
  else if !(0 ≤ deflate && deflate ≤ 9) then (arch, some .valueError)
  else
    match infer_record_type v with
    | .error e => (arch, some e)
    | .ok Option.none => (arch, some .valueError)
    | .ok (some (rt, _, extra)) =>
      let gattrs0 : Attrs :=
        [("RecordType", .s rt), ("Deflate", .i deflate),
         ("Description", .s description)]
      if is_primitive rt then
        match insertPrimitiveData deflate rt v extra with
        | .ok (emptyStr, ds) =>
          (⟨update_header arch.attrs now,
            arch.children ++
              [(label, .group (attrsSet gattrs0 "Empty" (.s emptyStr)) [(label, ds)])]⟩,
           Option.none)
        | .error e =>
          -- top-level primitive failures are not wrapped by the rollback
          (⟨arch.attrs, arch.children ++ [(label, .group gattrs0 [])]⟩, some e)
      else
        let r := insertCompositeData (2 * pySize v + 2) deflate rt v
        let newRoot := if r.1 then update_header arch.attrs now else arch.attrs
        match r.2.2.2 with
        | Option.none =>
          (⟨newRoot,
            arch.children ++ [(label, .group (applyAttrs gattrs0 r.2.1) r.2.2.1)]⟩,
           Option.none)
        | some e =>
          if isValueError e then (⟨newRoot, arch.children⟩, some e)
          else
            (⟨newRoot,
              arch.children ++ [(label, .group (applyAttrs gattrs0 r.2.1) r.2.2.1)]⟩,
             some e)

mutual

/-- Strip every attribute from an object tree, keeping dataset payloads and
storage configuration: this is what `remove`'s `_copy_visitor` produces, since
`create_group(path)` and `create_dataset(path, data=..., compression=..., ...)`
recreate the objects without ever copying `source_obj.attrs`. -/
def stripAttrsObj : HObj → HObj
  | .group _ ch => .group [] (stripAttrsChildren ch)
  | .dataset _ comp d => .dataset [] comp d

/-- Children of a stripped group. -/
def stripAttrsChildren : List (String × HObj) → List (String × HObj)
  | [] => []
  | (k, o) :: rest => (k, stripAttrsObj o) :: stripAttrsChildren rest

end

/-- `remove` (src/sda/sda_file.py lines 275-326): validate, then rebuild the
archive in a fresh container — the root attributes are copied and
header-touched, every path whose top-level label is retained is recreated by
`_copy_visitor` (which copies dataset payloads and storage configuration but
no object attributes), and the new file atomically replaces the old one. -/
def removeOp (arch : Archive) (mode : String) (labels : List String)
    (now : String) : Archive × Option PyErr :=
  match validate_can_write arch mode with
  | some e => (arch, some e)
  | Option.none =>
  if labels.isEmpty then (arch, some .valueError)
  else if labels.any labelHasBadChar then (arch, some .valueError)
  else if labels.any (fun l => !((labelsOf arch).contains l)) then (arch, some .valueError)
  else
    (⟨update_header arch.attrs now,
      stripAttrsChildren (arch.children.filter (fun kv => !(labels.contains kv.1)))⟩,
     Option.none)

/-- The attribute dictionary `get_decoded(h5file[label].attrs, ...)` reads
from in `replace`. -/
def recAttrsOf (arch : Archive) (label : String) : Attrs :=
  match childLookup arch.children label with
  | some o => hAttrs o
  | Option.none => []

/-- `replace` (src/sda/sda_file.py lines 370-382): validate, read the record's
`Deflate` and `Description` attributes, `remove` the label, then `insert` the
new value under the same label with the old description and deflate (a missing
attribute raises `KeyError` at the `attrs[...]` lookups). -/
def replaceOp (arch : Archive) (mode : String) (label : String) (v : PyVal)
    (now : String) : Archive × Option PyErr :=
  match validate_can_write arch mode with
  | some e => (arch, some e)
  | Option.none =>
  if labelHasBadChar label then (arch, some .valueError)
  else if !((labelsOf arch).contains label) then (arch, some .valueError)
  else
    let descr := attrsGet (recAttrsOf arch label) "Description"
    let defl := attrsGet (recAttrsOf arch label) "Deflate"
    let r1 := removeOp arch mode [label] now
    match r1.2 with
    | some e => (r1.1, some e)
    | Option.none =>
      match descr, defl with
      | some (.s d), some (.i df) => insertOp r1.1 mode label v d df now
      | _, _ => (r1.1, some .keyError)

/-! ## Extraction (src/sda/sda_file.py lines 147-171 and 394-439) -/

/-- An extracted value, after the §4.2 presentation rule. -/
inductive XVal where
  | numArr (shape : List Nat) (cdata : List Int)
  | numRow (xs : List Int)
  | numScalar (n : Int)
  | flScalar (f : Fl)
  | boolScalar (b : Bool)
  | boolList (bs : List Bool)
  | chars (s : String)
  | emptyCell
deriving DecidableEq

/-- `get_empty_for_type` (src/sda/utils.py lines 240-258). -/
def get_empty_for_type (rt : String) : Except PyErr XVal :=
  if rt == "numeric" then .ok (.flScalar Option.none)
  else if rt == "character" then .ok (.chars "")
  else if rt == "logical" then .ok (.boolList [])
  else if rt == "cell" then .ok .emptyCell
  else .error .valueError

/-- Modelled from the spec: the §4.2 post-extraction presentation rule for
numeric data (`extract_primitive` is imported by src/sda/sda_file.py but is
missing from src/sda/utils.py).  A stored row vector loses its leading
size-1 dimension; if a single element remains it is unwrapped to a scalar. -/
def presentNumeric (shape : List Nat) (cdata : List Int) : XVal :=
  match shape with
  | 1 :: rest =>
    if rest.prod == 1 then
      match cdata with
      | [n] => .numScalar n
      | _ => .numArr rest cdata
    else if rest.length == 1 then .numRow cdata
    else .numArr rest cdata
  | _ => .numArr shape cdata

/-- Modelled from the spec: `extract_primitive` dispatches on `RecordType` and
the dataset's `Complex`/`Sparse` attributes to the extraction codecs of
src/sda/utils.py (`extract_numeric` is the identity, `extract_logical` casts
to bool, `extract_character` decodes the byte row), then applies the
presentation rule.  The complex and sparse payload paths are covered by the
pure codecs `extract_complex`/`extract_sparse` above and are not routed
through the archive-level model. -/
def extract_primitive (rt : String) (data : Stored) (dattrs : Attrs) :
    Except PyErr XVal :=
  if rt == "numeric" then
    if attrsGet dattrs "Complex" == some (.s "yes") ||
       attrsGet dattrs "Sparse" == some (.s "yes") then .error .outOfModel
    else
      match data with
      | .sclInt n => .ok (.numScalar n)
      | .sclFl f => .ok (.flScalar f)
      | .numArr shape cdata => .ok (presentNumeric shape cdata)
      | _ => .error .outOfModel
  else if rt == "logical" then
    match data with
    | .sclInt n => .ok (.boolScalar (n != 0))
    | .numArr _ cdata => .ok (.boolList (cdata.map (· != 0)))
    | _ => .error .outOfModel
  else if rt == "character" then
    match data with
    | .bytes s => .ok (.chars s)
    | _ => .error .outOfModel
  else .error .outOfModel

/-- `extract` composed with `_extract_data_from_group`
(src/sda/sda_file.py lines 147-171 and 394-425) for simple records: validate
the label, look the group up, read `RecordType` (a missing attribute is a
`KeyError` — this is what extraction hits after `remove` has stripped the
attributes), check it is supported, read `Empty` (same `KeyError`), then
either short-circuit to the type's empty value or read the child dataset and
run the primitive codec.  Composite record extraction is outside the model's
scope. -/
def extractOp (arch : Archive) (label : String) : Except PyErr XVal :=
  if labelHasBadChar label then .error .valueError
  else if !((labelsOf arch).contains label) then .error .valueError
  else
    match childLookup arch.children label with
    | Option.none => .error .keyError
    | some grp =>
      match attrsGet (hAttrs grp) "RecordType" with
      | Option.none => .error .keyError
      | some (.s rt) =>
        if !(is_supported rt) then .error .valueError
        else
          match attrsGet (hAttrs grp) "Empty" with
          | Option.none => .error .keyError
          | some (.s e) =>
            if e == "yes" then get_empty_for_type rt
            else if is_primitive rt then
              match hChild grp label with
              | some (.dataset dattrs _ data) => extract_primitive rt data dattrs
              | some (.group _ _) => .error .outOfModel
              | Option.none => .error .keyError
            else .error .outOfModel
          | some _ => .error .outOfModel
      | some _ => .error .valueError

/-! ## Concrete fixtures used by the evaluation theorems -/

/-- The 4×3 complex array of spec §8, with distinct (real, imaginary) pairs. -/
def ex43 : NDArray (Int × Int) :=
  ⟨[4, 3], [(0, 1), (2, 3), (4, 5), (6, 7), (8, 9), (10, 11),
            (12, 13), (14, 15), (16, 17), (18, 19), (20, 21), (22, 23)]⟩

/-- A 0-dimensional (scalar) complex value as an ndarray. -/
def exScalar : NDArray (Int × Int) := ⟨[], [(3, 4)]⟩

/-- A 1-dimensional complex vector of length 3. -/
def exVec : NDArray (Int × Int) := ⟨[3], [(1, 2), (3, 4), (5, 6)]⟩

/-- The 5×5 identity matrix of spec §8 in COO form. -/
def id5 : Coo Int := ⟨[0, 1, 2, 3, 4], [0, 1, 2, 3, 4], [1, 1, 1, 1, 1], (5, 5)⟩

/-- A 3×3 all-zero matrix in COO form: no stored triplets. -/
def cooZero33 : Coo Int := ⟨[], [], [], (3, 3)⟩

/-- The emptiness rule of the sparse branch of `infer_record_type`
(src/sdafile/utils.py lines 457-466): `np.prod(obj.shape) == 0`.  A square
all-zero matrix is not flagged empty, so its stored 3×0 form does reach
`extract_sparse` on extraction. -/
def sparseIsEmpty (shape : Nat × Nat) : Bool := shape.1 * shape.2 == 0

/-- A 2×2 sparse matrix whose last row and last column hold no entry. -/
def cooTrailingZero : Coo Int := ⟨[0], [0], [7], (2, 2)⟩

/-- A header with all five attributes present and valid. -/
def headerGood : Header :=
  ⟨some "SDA", some "1.1", some "yes", some "18-Aug-2017",
   some "18-Aug-2017 01:23:45"⟩

/-- Root attributes of a freshly created archive (`write_header`). -/
def rootAttrs0 : Attrs :=
  [("FileFormat", .s "SDA"), ("FormatVersion", .s "1.1"), ("Writable", .s "yes"),
   ("Created", .s "18-Aug-2017"), ("Updated", .s "18-Aug-2017")]

/-- A freshly created, writable, empty archive. -/
def archEmpty : Archive := ⟨rootAttrs0, []⟩

/-- Archive holding a 2×2 numeric record "A" and a scalar numeric record "B",
built through the modelled `insert` itself. -/
def archAB : Archive :=
  (insertOp
    (insertOp archEmpty "a" "A" (.intArr [2, 2] [1, 2, 3, 4]) "" 0 "18-Aug-2017").1
    "a" "B" (.int 5) "" 0 "18-Aug-2017").1

/-- Archive holding one scalar numeric record "L" with a description and
deflate level 2, built through the modelled `insert`. -/
def archL : Archive :=
  (insertOp archEmpty "a" "L" (.int 7) "the answer" 2 "18-Aug-2017").1

/-! # Theorems -/

/-! ## Mixed-radix index arithmetic -/

theorem toCidx_fromCidx (shape : List Nat) : ∀ i, i < shape.prod →
    toCidx shape (fromCidx shape i) = i := by
  induction shape with
  | nil =>
    intro i hi
    simp only [List.prod_nil] at hi
    simp only [fromCidx, toCidx]
    omega
  | cons d ds ih =>
    intro i hi
    simp only [List.prod_cons] at hi
    have hP : 0 < ds.prod := by
      rcases Nat.eq_zero_or_pos ds.prod with h0 | h0
      · rw [h0, Nat.mul_zero] at hi; omega
      · exact h0
    simp only [fromCidx, toCidx]
    rw [ih (i % ds.prod) (Nat.mod_lt _ hP)]
    rw [Nat.mul_comm (i / ds.prod) ds.prod]
    exact Nat.div_add_mod i ds.prod

theorem fromCidx_valid (shape : List Nat) : ∀ i, i < shape.prod →
    List.Forall₂ (· < ·) (fromCidx shape i) shape := by
  induction shape with
  | nil => intro i _; exact List.Forall₂.nil
  | cons d ds ih =>
    intro i hi
    simp only [List.prod_cons] at hi
    have hP : 0 < ds.prod := by
      rcases Nat.eq_zero_or_pos ds.prod with h0 | h0
      · rw [h0, Nat.mul_zero] at hi; omega
      · exact h0
    refine List.Forall₂.cons ?_ (ih _ (Nat.mod_lt _ hP))
    exact (Nat.div_lt_iff_lt_mul hP).mpr hi

theorem toFidx_lt (shape idx : List Nat) (h : List.Forall₂ (· < ·) idx shape) :
    toFidx shape idx < shape.prod := by
  induction h with
  | nil => simp [toFidx]
  | @cons i d is ds hab _ ih =>
    simp only [toFidx, List.prod_cons]
    have h2 : d * toFidx ds is + d ≤ d * ds.prod := by
      rw [← Nat.mul_succ]
      exact Nat.mul_le_mul_left d ih
    omega

theorem fromFidx_toFidx (shape idx : List Nat) (h : List.Forall₂ (· < ·) idx shape) :
    fromFidx shape (toFidx shape idx) = idx := by
  induction h with
  | nil => simp [fromFidx, toFidx]
  | @cons i d is ds hab _ ih =>
    have hd : 0 < d := Nat.lt_of_le_of_lt (Nat.zero_le i) hab
    simp only [toFidx, fromFidx]
    rw [Nat.add_mul_mod_self_left, Nat.mod_eq_of_lt hab,
        Nat.add_mul_div_left _ _ hd, Nat.div_eq_of_lt hab, Nat.zero_add, ih]

theorem getD_map_range {α : Type} (f : Nat → α) (d : α) {P j : Nat} (h : j < P) :
    ((List.range P).map f).getD j d = f j := by
  rw [List.getD_eq_getElem _ _ (by simpa using h)]
  simp

theorem reshapeF_ravelF {α : Type} [Inhabited α] (shape : List Nat) (cdata : List α)
    (h : cdata.length = shape.prod) : reshapeF shape (ravelF shape cdata) = cdata := by
  apply List.ext_getElem
  · simp [reshapeF, h]
  · intro i h1 h2
    have hi : i < shape.prod := by simpa [reshapeF] using h1
    simp only [reshapeF, List.getElem_map, List.getElem_range]
    have hvalid := fromCidx_valid shape i hi
    have hj : toFidx shape (fromCidx shape i) < shape.prod := toFidx_lt _ _ hvalid
    simp only [ravelF]
    rw [getD_map_range _ _ hj]
    rw [fromFidx_toFidx _ _ hvalid, toCidx_fromCidx shape i hi]
    exact List.getD_eq_getElem cdata default (by rw [h]; exact hi)

theorem zip_map_fst_snd_eq {β γ : Type} (l : List (β × γ)) :
    (l.map Prod.fst).zip (l.map Prod.snd) = l := by
  induction l with
  | nil => rfl
  | cons p rest ih => simp [ih]

theorem atleast2dShape_eq_self (shape : List Nat) (h : 2 ≤ shape.length) :
    atleast2dShape shape = shape := by
  match shape with
  | [] => simp at h
  | [n] => simp at h
  | a :: b :: rest => rfl

theorem atleast2dShape_prod (shape : List Nat) :
    (atleast2dShape shape).prod = shape.prod := by
  cases shape with
  | nil => rfl
  | cons a t =>
    cases t with
    | nil => simp [atleast2dShape]
    | cons b r => rfl

/-- Claim C3: coercion of a complex scalar or array flattens it in
column-major order into two rows holding the real and the imaginary parts,
with the float rows keeping the precision of the complex input (complex64 →
float32, complex128 → float64); extraction with the recorded original shape
(the `np.atleast_2d` shape persisted as `ArraySize`) reshapes back in
column-major order and recombines the rows into a complex value equal
element-wise to the input — for every input, scalars and vectors included —
with the recorded shape, which equals the input's own shape exactly for
inputs of at least two dimensions, and with the precision recovered from the
row dtype. -/
theorem complex_roundtrip {α : Type} [Inhabited α] (a : NDArray (α × α))
    (hwf : a.cdata.length = a.shape.prod) :
    (extract_complex (coerce_complex a) (atleast2dShape a.shape)).cdata = a.cdata ∧
    (extract_complex (coerce_complex a) (atleast2dShape a.shape)).shape
      = atleast2dShape a.shape ∧
    (2 ≤ a.shape.length → extract_complex (coerce_complex a) a.shape = a) ∧
    (∀ p, extract_complex_prec (complexRowPrec p) = p) ∧
    complexRowPrec CPrec.c64 = FPrec.f32 ∧ complexRowPrec CPrec.c128 = FPrec.f64 := by
  obtain ⟨shape, cdata⟩ := a
  simp only at hwf
  have hwf2 : cdata.length = (atleast2dShape shape).prod := by
    rw [atleast2dShape_prod]; exact hwf
  refine ⟨?_, rfl, ?_, fun p => by cases p <;> rfl, rfl, rfl⟩
  · simp only [coerce_complex, extract_complex]
    rw [zip_map_fst_snd_eq, reshapeF_ravelF _ cdata hwf2]
  · intro hdim
    simp only at hdim
    simp only [coerce_complex, extract_complex]
    rw [atleast2dShape_eq_self shape hdim, zip_map_fst_snd_eq,
        reshapeF_ravelF shape cdata hwf]

/-- Witness for C3 at the spec's 4×3 complex array example, plus a complex
scalar and a length-3 complex vector, whose elements also round-trip. -/
theorem complex_roundtrip_witness :
    extract_complex (coerce_complex ex43) ex43.shape = ex43 ∧
    (extract_complex (coerce_complex exScalar) (atleast2dShape exScalar.shape)).cdata
      = exScalar.cdata ∧
    (extract_complex (coerce_complex exVec) (atleast2dShape exVec.shape)).cdata
      = exVec.cdata :=
  ⟨(complex_roundtrip ex43 (by decide)).2.2.1 (by decide),
   (complex_roundtrip exScalar (by decide)).1,
   (complex_roundtrip exVec (by decide)).1⟩

/-! ## Sparse codec -/

theorem extract_coerce_sparse {α : Type} (c : Coo α) (hr : c.row ≠ []) (hc : c.col ≠ []) :
    extract_sparse (coerce_sparse c) =
      .ok ⟨c.row, c.col, c.data, (maxL c.row + 1, maxL c.col + 1)⟩ := by
  obtain ⟨row, col, data, shape⟩ := c
  simp only at hr hc
  have h1 : (row.map (· + 1)).isEmpty = false := by
    cases row with
    | nil => exact absurd rfl hr
    | cons a t => rfl
  have h2 : (col.map (· + 1)).isEmpty = false := by
    cases col with
    | nil => exact absurd rfl hc
    | cons a t => rfl
  simp only [coerce_sparse, extract_sparse, h1, h2, Bool.false_eq_true, or_self,
    Bool.or_self, if_false, List.map_map]
  have hmap : ∀ l : List Nat, l.map ((· - 1) ∘ (· + 1)) = l := by
    intro l
    induction l with
    | nil => rfl
    | cons a t ih => simp [ih]
  rw [hmap row, hmap col]

/-- Counterexample to claim C4 as stated: an all-zero sparse matrix (no
stored triplets) does not round-trip.  Its stored form is a 3×0 matrix, and
rebuilding it raises `ValueError` because `coo_matrix` cannot infer dimensions
from empty index arrays; the record is not short-circuited by the `Empty`
flag either, since the sparse branch of `infer_record_type` computes
emptiness as `prod(shape) == 0`, which a 3×3 zero matrix fails. -/
theorem sparse_roundtrip_counterexample :
    coerce_sparse cooZero33 = ([], [], []) ∧
    extract_sparse (coerce_sparse cooZero33) = .error .valueError ∧
    sparseIsEmpty cooZero33.shape = false := by
  refine ⟨by decide, by decide, by decide⟩

/-- Claim C4 (amended): a real COO sparse matrix with at least one stored
triplet is coerced to the three rows `(row + 1, col + 1, value)` with 1-based
indices, and extraction subtracts one from the index rows and rebuilds a
coordinate matrix with the same nonzero pattern (row and column lists) and the
same values; in particular the 5×5 identity matrix round-trips exactly.  A
matrix with no stored triplets fails to round-trip (see the counterexample):
extraction raises `ValueError` on the empty index arrays. -/
theorem sparse_roundtrip {α : Type} (c : Coo α) (hr : c.row ≠ []) (hc : c.col ≠ []) :
    (∃ c2, extract_sparse (coerce_sparse c) = .ok c2 ∧
      c2.row = c.row ∧ c2.col = c.col ∧ c2.data = c.data) ∧
    coerce_sparse id5 = ([1, 2, 3, 4, 5], [1, 2, 3, 4, 5], [1, 1, 1, 1, 1]) ∧
    extract_sparse (coerce_sparse id5) = .ok id5 :=
  ⟨⟨_, extract_coerce_sparse c hr hc, rfl, rfl, rfl⟩, by decide, by decide⟩

/-- Witness for C4 at the 5×5 identity matrix. -/
theorem sparse_roundtrip_witness :
    (∃ c2, extract_sparse (coerce_sparse id5) = .ok c2 ∧
      c2.row = id5.row ∧ c2.col = id5.col ∧ c2.data = id5.data) ∧
    coerce_sparse id5 = ([1, 2, 3, 4, 5], [1, 2, 3, 4, 5], [1, 1, 1, 1, 1]) ∧
    extract_sparse (coerce_sparse id5) = .ok id5 :=
  sparse_roundtrip id5 (by decide) (by decide)

theorem maxL_mem {l : List Nat} (h : l ≠ []) : maxL l ∈ l := by
  induction l with
  | nil => exact absurd rfl h
  | cons a t ih =>
    cases t with
    | nil => simp [maxL]
    | cons b r =>
      have ihm := ih (by simp)
      simp only [maxL, List.foldr_cons] at ihm ⊢
      rcases max_choice a (List.foldr max 0 (b :: r).tail |> fun _ => max b (List.foldr max 0 r)) with h1 | h1
      · rw [h1]; exact List.mem_cons_self a _
      · rw [h1]; exact List.mem_cons_of_mem a ihm

theorem le_maxL {l : List Nat} {a : Nat} (h : a ∈ l) : a ≤ maxL l := by
  induction l with
  | nil => simp at h
  | cons b t ih =>
    simp only [maxL, List.foldr_cons]
    rcases List.mem_cons.mp h with h1 | h1
    · subst h1; exact Nat.le_max_left _ _
    · exact Nat.le_trans (ih h1) (Nat.le_max_right _ _)

/-- Claim C10: extraction of a stored sparse record rebuilds the coordinate
matrix without an explicit shape, so the extracted shape is
`(max row index + 1, max column index + 1)` over the reconstructed 0-based
indices; consequently the original shape `(m, n)` is recovered exactly when
the last row and the last column each contain a stored entry, and a matrix
with an unoccupied last row (or column) round-trips to a strictly smaller
dimension. -/
theorem sparse_shape_inference {α : Type} (c : Coo α) (m n : Nat)
    (hm : ∀ r ∈ c.row, r < m) (hn : ∀ j ∈ c.col, j < n)
    (hr : c.row ≠ []) (hc : c.col ≠ []) :
    ∃ c2, extract_sparse (coerce_sparse c) = .ok c2 ∧
      c2.shape = (maxL c.row + 1, maxL c.col + 1) ∧
      (c2.shape = (m, n) ↔ ((m - 1) ∈ c.row ∧ (n - 1) ∈ c.col)) ∧
      ((m - 1) ∉ c.row → c2.shape.1 < m) ∧
      ((n - 1) ∉ c.col → c2.shape.2 < n) := by
  refine ⟨_, extract_coerce_sparse c hr hc, rfl, ?_, ?_, ?_⟩
  · have hrowlt : maxL c.row < m := hm _ (maxL_mem hr)
    have hcollt : maxL c.col < n := hn _ (maxL_mem hc)
    simp only [Prod.mk.injEq]
    constructor
    · rintro ⟨he1, he2⟩
      constructor
      · have : maxL c.row = m - 1 := by omega
        exact this ▸ maxL_mem hr
      · have : maxL c.col = n - 1 := by omega
        exact this ▸ maxL_mem hc
    · rintro ⟨hm1, hn1⟩
      have h1 : m - 1 ≤ maxL c.row := le_maxL hm1
      have h2 : n - 1 ≤ maxL c.col := le_maxL hn1
      omega
  · intro hnot
    have hrowlt : maxL c.row < m := hm _ (maxL_mem hr)
    rcases Nat.lt_or_ge (maxL c.row + 1) m with h | h
    · exact h
    · exfalso
      have : maxL c.row = m - 1 := by omega
      exact hnot (this ▸ maxL_mem hr)
  · intro hnot
    have hcollt : maxL c.col < n := hn _ (maxL_mem hc)
    rcases Nat.lt_or_ge (maxL c.col + 1) n with h | h
    · exact h
    · exfalso
      have : maxL c.col = n - 1 := by omega
      exact hnot (this ▸ maxL_mem hc)

/-- Witness for C10 at a 2×2 matrix whose only entry sits at (0, 0): the
extracted shape collapses to (1, 1). -/
theorem sparse_shape_inference_witness :
    ∃ c2, extract_sparse (coerce_sparse cooTrailingZero) = .ok c2 ∧
      c2.shape = (maxL cooTrailingZero.row + 1, maxL cooTrailingZero.col + 1) ∧
      (c2.shape = (2, 2) ↔ ((2 - 1) ∈ cooTrailingZero.row ∧ (2 - 1) ∈ cooTrailingZero.col)) ∧
      ((2 - 1) ∉ cooTrailingZero.row → c2.shape.1 < 2) ∧
      ((2 - 1) ∉ cooTrailingZero.col → c2.shape.2 < 2) :=
  sparse_shape_inference cooTrailingZero 2 2 (by decide) (by decide) (by decide) (by decide)

/-! ## Logical codec -/

/-- Counterexample to claim C9 as stated: the array branch casts to unsigned
8-bit before clipping, and the cast wraps modulo 256, so the nonzero element
256 coerces to 0, not to the nearer boundary 1. -/
theorem coerce_logical_counterexample :
    coerce_logical_array [(256 : Int)] = [0] ∧ (256 : Int) ≠ 0 ∧
    coerce_logical_array [(256 : Int)] ≠ [1] := by decide

/-- Claim C9 (amended): coercion maps a scalar logical to 0 or 1; an array is
cast to unsigned 8-bit — which wraps each value modulo 256 — and then clipped
to {0, 1}, so an element coerces to 0 exactly when its value is divisible by
256 and to 1 otherwise (for values in [0, 255] this is truncation to the
boundary); extraction casts the stored values back to boolean, and boolean
data round-trips exactly. -/
theorem coerce_logical_amended (xs : List Int) (b : Bool) (bs : List Bool) :
    coerce_logical_array xs = xs.map (fun x => if (256 : Int) ∣ x then 0 else 1) ∧
    coerce_logical_scalar b ≤ 1 ∧
    (coerce_logical_scalar b = 1 ↔ b = true) ∧
    extract_logical_scalar (coerce_logical_scalar b) = b ∧
    extract_logical_array
      (coerce_logical_array (bs.map (fun v => if v then (1 : Int) else 0))) = bs := by
  refine ⟨?_, ?_, ?_, ?_, ?_⟩
  · induction xs with
    | nil => rfl
    | cons x t ih =>
      simp only [coerce_logical_array, List.map_cons] at ih ⊢
      rw [ih]
      have hhead : min (astype_uint8 x) 1 = if (256 : Int) ∣ x then 0 else 1 := by
        by_cases hdvd : (256 : Int) ∣ x
        · have h0 : x % 256 = 0 := Int.emod_eq_zero_of_dvd hdvd
          simp [astype_uint8, h0, hdvd]
        · have hne : x % 256 ≠ 0 := fun h => hdvd (Int.dvd_of_emod_eq_zero h)
          have hnonneg : 0 ≤ x % 256 := Int.emod_nonneg x (by norm_num)
          have hpos : 1 ≤ (x % 256).toNat := by omega
          simp [astype_uint8, hdvd, Nat.min_eq_right hpos]
      rw [hhead]
  · cases b <;> decide
  · cases b <;> simp [coerce_logical_scalar]
  · cases b <;> decide
  · induction bs with
    | nil => rfl
    | cons v t ih =>
      simp only [coerce_logical_array, extract_logical_array, List.map_cons] at ih ⊢
      rw [List.cons.injEq]
      exact ⟨by cases v <;> decide, ih⟩

/-! ## Header validation -/

theorem error_if_bad_attr_ok_iff (o : Option String) (a : String) (f : String → Bool) :
    error_if_bad_attr o a f = .ok () ↔ ∃ v, o = some v ∧ f v = true := by
  cases o with
  | none => simp [error_if_bad_attr]
  | some v =>
    by_cases hf : f v
    · simp [error_if_bad_attr, hf]
    · simp [error_if_bad_attr, hf]

theorem andThenCheck_ok_iff (e1 k : Except BadSDAFile Unit) :
    andThenCheck e1 k = .ok () ↔ (e1 = .ok () ∧ k = .ok ()) := by
  cases e1 with
  | error x => simp [andThenCheck]
  | ok u => cases u; simp [andThenCheck]

/-- Claim C7: opening an existing archive succeeds exactly when all five
header attributes are present and individually valid — `FileFormat` exactly
"SDA", `FormatVersion` matching `1.x` for x ≤ 1, `Writable` exactly "yes" or
"no", both timestamps parsing as `DD-Mon-YYYY HH:MM:SS` or date-only
`DD-Mon-YYYY` — and in particular `FormatVersion = "2.0"` and
`Writable = "maybe"` raise `BadSDAFile`. -/
theorem header_validation_iff :
    (∀ h : Header, error_if_bad_header h = .ok () ↔
      ((∃ v, h.FileFormat = some v ∧ is_valid_file_format v = true) ∧
       (∃ v, h.FormatVersion = some v ∧ is_valid_format_version v = true) ∧
       (∃ v, h.Writable = some v ∧ is_valid_writable v = true) ∧
       (∃ v, h.Created = some v ∧ is_valid_date v = true) ∧
       (∃ v, h.Updated = some v ∧ is_valid_date v = true))) ∧
    is_valid_format_version "1.0" = true ∧
    is_valid_format_version "1.1" = true ∧
    is_valid_format_version "2.0" = false ∧
    is_valid_writable "yes" = true ∧
    is_valid_writable "no" = true ∧
    is_valid_writable "maybe" = false ∧
    is_valid_file_format "SDA" = true ∧
    is_valid_file_format "sda" = false ∧
    is_valid_date "18-Aug-2017 01:23:45" = true ∧
    is_valid_date "18-Aug-2017" = true ∧
    is_valid_date "2017-08-18" = false ∧
    error_if_bad_header headerGood = .ok () ∧
    error_if_bad_header { headerGood with FormatVersion := some "2.0" } =
      .error (.invalidAttr "FormatVersion") ∧
    error_if_bad_header { headerGood with Writable := some "maybe" } =
      .error (.invalidAttr "Writable") ∧
    error_if_bad_header { headerGood with Updated := Option.none } =
      .error (.missingAttr "Updated") := by
  refine ⟨?_, by decide, by decide, by decide, by decide, by decide, by decide,
    by decide, by decide, by decide, by decide, by decide, by decide, by decide,
    by decide, by decide⟩
  intro h
  simp only [error_if_bad_header, andThenCheck_ok_iff, error_if_bad_attr_ok_iff, and_assoc]

/-! ## Type inference on complex values -/

/-- Claim C5: the source computes the emptiness of complex data as
`np.isnan(obj.real) and np.isnan(obj.complex)` (with `.all()` for arrays), but
no complex value has an attribute named `complex`, so whenever the real part
is (all-)NaN the attribute lookup raises `AttributeError` instead of testing
the imaginary part; only values with a non-NaN real part reach the claimed
`('numeric', extra='complex', empty=False)` result.  The claim's rule (empty
iff all real and all imaginary parts are NaN, `claimComplexEmpty`) expects
`is_empty = True` at `complex(nan, nan)` where the code raises. -/
theorem infer_complex_empty_eval :
    infer_record_type (.complex Option.none Option.none) = .error .attributeError ∧
    infer_record_type (.complex Option.none (some 0)) = .error .attributeError ∧
    infer_record_type (.complexArr [2, 1] [(Option.none, some 1), (Option.none, Option.none)])
      = .error .attributeError ∧
    infer_record_type (.complex (some 1) Option.none)
      = .ok (some ("numeric", false, some "complex")) ∧
    infer_record_type (.complexArr [1, 2] [((some 0), some 1), (Option.none, Option.none)])
      = .ok (some ("numeric", false, some "complex")) ∧
    claimComplexEmpty Option.none Option.none = true ∧
    claimComplexEmpty Option.none (some 0) = false := by
  refine ⟨by decide, by decide, by decide, by decide, by decide, by decide, by decide⟩

/-! ## Attribute dictionary lemmas -/

theorem attrsGet_map_set (a : Attrs) (k k2 : String) (v : AttrVal)
    (h : (k == k2) = false) :
    attrsGet (a.map (fun kv => if kv.1 == k then (k, v) else kv)) k2 = attrsGet a k2 := by
  induction a with
  | nil => rfl
  | cons kv rest ih =>
    simp only [List.map_cons, attrsGet] at ih ⊢
    by_cases hk : (kv.1 == k) = true
    · have hkv2 : (kv.1 == k2) = false := by
        rw [show kv.1 = k from eq_of_beq hk]; exact h
      rw [if_pos hk]
      simp only [List.find?, h, hkv2]
      exact ih
    · rw [if_neg hk]
      by_cases hk2 : (kv.1 == k2) = true
      · simp only [List.find?, hk2]
      · have hk2f : (kv.1 == k2) = false := by simpa using hk2
        simp only [List.find?, hk2f]
        exact ih

theorem attrsGet_append_new (a : Attrs) (k k2 : String) (v : AttrVal)
    (h : (k == k2) = false) :
    attrsGet (a ++ [(k, v)]) k2 = attrsGet a k2 := by
  induction a with
  | nil =>
    simp only [List.nil_append, attrsGet, List.find?, h]
  | cons kv rest ih =>
    simp only [List.cons_append, attrsGet] at ih ⊢
    by_cases hk2 : (kv.1 == k2) = true
    · simp only [List.find?, hk2]
    · have hk2f : (kv.1 == k2) = false := by simpa using hk2
      simp only [List.find?, hk2f]
      exact ih

theorem attrsGet_attrsSet_ne (a : Attrs) (k k2 : String) (v : AttrVal)
    (h : (k == k2) = false) :
    attrsGet (attrsSet a k v) k2 = attrsGet a k2 := by
  unfold attrsSet
  split
  · exact attrsGet_map_set a k k2 v h
  · exact attrsGet_append_new a k k2 v h

theorem attrsGet_update_header (a : Attrs) (now : String) (k : String)
    (h1 : (("FormatVersion" : String) == k) = false)
    (h2 : (("Updated" : String) == k) = false) :
    attrsGet (update_header a now) k = attrsGet a k := by
  unfold update_header
  rw [attrsGet_attrsSet_ne _ _ _ _ h2, attrsGet_attrsSet_ne _ _ _ _ h1]

theorem validate_can_write_update (arch : Archive) (ch : List (String × HObj))
    (now mode : String) :
    validate_can_write ⟨update_header arch.attrs now, ch⟩ mode
      = validate_can_write arch mode := by
  simp only [validate_can_write]
  rw [attrsGet_update_header _ _ _ (by decide) (by decide)]

theorem stripAttrsChildren_map_fst (ch : List (String × HObj)) :
    (stripAttrsChildren ch).map (·.1) = ch.map (·.1) := by
  induction ch with
  | nil => rfl
  | cons kv rest ih =>
    cases kv with
    | mk k o => simp [stripAttrsChildren, ih]

theorem contains_filter_excluded (ch : List (String × HObj)) (lbls : List String)
    (l : String) (h : lbls.contains l = true) :
    ((ch.filter (fun kv => !(lbls.contains kv.1))).map (·.1)).contains l = false := by
  induction ch with
  | nil => rfl
  | cons kv rest ih =>
    by_cases hk : lbls.contains kv.1 = true
    · simp only [List.filter_cons, hk, Bool.not_true, Bool.false_eq_true, if_false]
      exact ih
    · have hkb : lbls.contains kv.1 = false := by
        simpa using hk
      have hne : (l == kv.1) = false := by
        by_cases he : l = kv.1
        · rw [he] at h; rw [h] at hkb; simp at hkb
        · exact beq_eq_false_iff_ne.mpr he
      simp only [List.filter_cons, hkb, Bool.not_false, if_true, List.map_cons,
        List.contains_cons, hne, Bool.false_or]
      exact ih

/-! ## Insertion of unsupported values -/

/-- Shared lemma: `insert` of a value whose inferred record kind is
unsupported fails during validation, before any write, and returns the exact
prior archive state (labels and header `Updated` timestamp included). -/
theorem insertOp_unsupported (arch : Archive) (mode label : String) (v : PyVal)
    (description : String) (deflate : Int) (now : String)
    (hw : validate_can_write arch mode = Option.none)
    (hl : labelHasBadChar label = false)
    (hfresh : (labelsOf arch).contains label = false)
    (hd0 : 0 ≤ deflate) (hd9 : deflate ≤ 9)
    (hinf : infer_record_type v = .ok Option.none) :
    insertOp arch mode label v description deflate now = (arch, some .valueError) := by
  simp [insertOp, hw, hl, hfresh, hinf, hd0, hd9]

/-- Claim C8: for every value whose inferred record kind is unsupported,
`insert` raises a `ValueError` and leaves the archive completely unchanged —
the returned state is literally the prior state, so `labels()` and the header
`Updated` timestamp are untouched. -/
theorem insert_unsupported_unchanged (arch : Archive) (mode label : String)
    (v : PyVal) (description : String) (deflate : Int) (now : String)
    (hw : validate_can_write arch mode = Option.none)
    (hl : labelHasBadChar label = false)
    (hfresh : (labelsOf arch).contains label = false)
    (hd0 : 0 ≤ deflate) (hd9 : deflate ≤ 9)
    (hinf : infer_record_type v = .ok Option.none) :
    insertOp arch mode label v description deflate now = (arch, some .valueError) :=
  insertOp_unsupported arch mode label v description deflate now hw hl hfresh hd0 hd9 hinf

/-- Witness for C8: inserting Python `None` into a fresh archive. -/
theorem insert_unsupported_unchanged_witness :
    insertOp archEmpty "a" "bad" PyVal.none "" 0 "t" = (archEmpty, some .valueError) :=
  insert_unsupported_unchanged archEmpty "a" "bad" PyVal.none "" 0 "t"
    (by decide) (by decide) (by decide) (by decide) (by decide) (by decide)

/-! ## The remove rebuild drops record attributes (C1) -/

/-- Claim C1 (code bug): after `remove("B")`, the label "A" is still listed
and its dataset payload and compression were copied into the rebuilt
container, but `_copy_visitor` never copies group or dataset attributes —
the rebuilt record for "A" carries an empty attribute dictionary, and
extracting "A" afterwards raises `KeyError` at `attrs['RecordType']` instead
of returning the unchanged value it returned before the call. -/
theorem remove_strips_attrs_eval :
    extractOp archAB "A" = .ok (.numArr [2, 2] [1, 2, 3, 4]) ∧
    (removeOp archAB "a" ["B"] "19-Aug-2017").2 = Option.none ∧
    labelsOf (removeOp archAB "a" ["B"] "19-Aug-2017").1 = ["A"] ∧
    ((childLookup (removeOp archAB "a" ["B"] "19-Aug-2017").1.children "A").map hAttrs)
      = some [] ∧
    extractOp (removeOp archAB "a" ["B"] "19-Aug-2017").1 "A" = .error .keyError := by
  refine ⟨by decide, by decide, by decide, by decide, by decide⟩

/-! ## Composite insert rollback (C2) -/

/-- Claim C2 (code bug): the rollback in `insert` catches only `ValueError`.
A structure insert whose field value is a complex number with NaN real part
fails partway with `AttributeError` (the `obj.complex` slip in
`infer_record_type`), which escapes the `except ValueError` handler, so the
partially-written top-level group survives and the label remains in
`labels()`.  The claim's flagship case — a field name starting with a digit —
does raise `ValueError` before any child is written and is rolled back, the
label being absent afterwards. -/
theorem insert_composite_attribute_error_eval :
    (insertOp archEmpty "a" "x" (.dict [("a", .complex Option.none Option.none)])
      "" 0 "t").2 = some .attributeError ∧
    labelsOf (insertOp archEmpty "a" "x" (.dict [("a", .complex Option.none Option.none)])
      "" 0 "t").1 = ["x"] ∧
    (insertOp archEmpty "a" "x" (.dict [("0bad", .list [.int 1, .int 2, .int 3])])
      "" 0 "t").2 = some .valueError ∧
    labelsOf (insertOp archEmpty "a" "x" (.dict [("0bad", .list [.int 1, .int 2, .int 3])])
      "" 0 "t").1 = [] := by
  refine ⟨by decide, by decide, by decide, by decide⟩

/-! ## Replace is not atomic (C6) -/

/-- Counterexample to claim C6 as stated: replacing the existing record "L"
with an unsupported value raises, yet the archive is not left in the state it
was in before the call — "L" was present before and is absent afterwards. -/
theorem replace_unsupported_counterexample :
    (replaceOp archL "a" "L" PyVal.none "19-Aug-2017").2 = some .valueError ∧
    ((labelsOf (replaceOp archL "a" "L" PyVal.none "19-Aug-2017").1).contains "L") = false ∧
    (labelsOf archL).contains "L" = true := by
  refine ⟨by decide, by decide, by decide⟩

/-- Claim C6 (amended): if `replace(L, value)` fails because the inferred kind
of the new value is unsupported, the archive is NOT restored: the `remove`
step has already taken effect, so after the failed call L is absent from
`labels()` and the archive equals the post-remove (rebuilt, header-touched)
state; the old record for L is lost. -/
theorem replace_failure_behavior (arch : Archive) (mode label : String) (v : PyVal)
    (now : String) (d : String) (df : Int)
    (hw : validate_can_write arch mode = Option.none)
    (hl : labelHasBadChar label = false)
    (hcont : (labelsOf arch).contains label = true)
    (hdesc : attrsGet (recAttrsOf arch label) "Description" = some (.s d))
    (hdefl : attrsGet (recAttrsOf arch label) "Deflate" = some (.i df))
    (hd0 : 0 ≤ df) (hd9 : df ≤ 9)
    (hinf : infer_record_type v = .ok Option.none) :
    (replaceOp arch mode label v now).2 = some .valueError ∧
    ((labelsOf (replaceOp arch mode label v now).1).contains label) = false ∧
    (replaceOp arch mode label v now).1 = (removeOp arch mode [label] now).1 := by
  have hmem : label ∈ labelsOf arch := by simpa using hcont
  have hbad : [label].any labelHasBadChar = false := by simp [hl]
  have hexist : [label].any (fun l => !((labelsOf arch).contains l)) = false := by
    simp [hmem]
  have hrem : removeOp arch mode [label] now =
      (⟨update_header arch.attrs now,
        stripAttrsChildren (arch.children.filter (fun kv => !([label].contains kv.1)))⟩,
       Option.none) := by
    simp [removeOp, hw, hbad, hexist, hmem]
  have hlabels2 :
      (labelsOf ⟨update_header arch.attrs now,
        stripAttrsChildren (arch.children.filter (fun kv => !([label].contains kv.1)))⟩).contains
        label = false := by
    simp only [labelsOf]
    rw [stripAttrsChildren_map_fst]
    exact contains_filter_excluded _ _ _ (by simp)
  have hw2 : validate_can_write
      ⟨update_header arch.attrs now,
        stripAttrsChildren (arch.children.filter (fun kv => !([label].contains kv.1)))⟩ mode
      = Option.none :=
    (validate_can_write_update arch _ now mode).trans hw
  have hins :
      insertOp ⟨update_header arch.attrs now,
        stripAttrsChildren (arch.children.filter (fun kv => !([label].contains kv.1)))⟩
        mode label v d df now =
      (⟨update_header arch.attrs now,
        stripAttrsChildren (arch.children.filter (fun kv => !([label].contains kv.1)))⟩,
       some .valueError) :=
    insertOp_unsupported _ mode label v d df now hw2 hl hlabels2 hd0 hd9 hinf
  have hrepl : replaceOp arch mode label v now =
      (⟨update_header arch.attrs now,
        stripAttrsChildren (arch.children.filter (fun kv => !([label].contains kv.1)))⟩,
       some .valueError) := by
    simp only [replaceOp, hw, hl, hcont, hdesc, hdefl, hrem, hins, Bool.not_true,
      Bool.false_eq_true, if_false]
  refine ⟨by rw [hrepl], by rw [hrepl]; exact hlabels2, by rw [hrepl, hrem]⟩

/-- Witness for C6: replacing the scalar record "L" with Python `None`. -/
theorem replace_failure_behavior_witness :
    (replaceOp archL "a" "L" PyVal.none "19-Aug-2017").2 = some .valueError ∧
    ((labelsOf (replaceOp archL "a" "L" PyVal.none "19-Aug-2017").1).contains "L") = false ∧
    (replaceOp archL "a" "L" PyVal.none "19-Aug-2017").1 =
      (removeOp archL "a" ["L"] "19-Aug-2017").1 :=
  replace_failure_behavior archL "a" "L" PyVal.none "19-Aug-2017" "the answer" 2
    (by decide) (by decide) (by decide) (by decide) (by decide) (by decide)
    (by decide) (by decide)

end SDA
